import Mathlib

/-!
Shallow embedding of the coordination core of the `hedera-agent-economy`
backend (Python), together with theorems checking its natural-language
specification.

Conventions of the embedding:
* Python `float` values (budgets, costs, balances) are modelled as exact
  rationals `ℚ`; Python `round(x, 4)` is modelled as round-half-to-even on
  rationals at four decimal places.
* Python dictionaries keyed by strings are modelled as association lists in
  insertion order (`List (String × α)`); `EconomyState.agents` keeps the
  roster in registration order, matching `dict.values()` iteration order.
* Nondeterministic environment data (wall-clock durations, `time.time()`,
  uuids, the outcome of the Claude fulfillment call, the outcome of the
  HBAR transfer, `os.getenv`, the process string hash) enter as explicit
  parameters or `Except`-valued oracles.
* Python exceptions are modelled with `Except String`; a raised exception
  carries the message and the heap state at raise time.
* Message `payload` dictionaries are modelled as `List (String × String)`
  with numeric values rendered by `toString`; the pydantic-generated
  `id`/timestamp fields, which no claim concerns, are abstracted away.
-/

namespace HederaEconomy

/-- Python `min(xs, key)`: the first element with the strictly smallest key
(`min` keeps the earliest element among ties); `none` on an empty list. -/
def pyMinBy (key : α → Nat) : List α → Option α
  | [] => none
  | x :: xs => some (xs.foldl (fun b y => if key y < key b then y else b) x)

/-- Python substring test `needle in hay` on lists of characters. -/
def listIsSubseg [DecidableEq α] (needle hay : List α) : Bool :=
  match hay with
  | [] => needle.isEmpty
  | _ :: t => needle.isPrefixOf hay || listIsSubseg needle t

/-- Python substring test `needle in hay` on strings. -/
def strIn (needle hay : String) : Bool :=
  listIsSubseg needle.data hay.data

/-- Association-list lookup (Python `dict.get`). -/
def alookup (k : String) : List (String × α) → Option α
  | [] => none
  | (k₁, v) :: rest => if k₁ = k then some v else alookup k rest

/-- Association-list update (Python `dict[k] = v`), keeping insertion order. -/
def alistSet (k : String) (v : α) : List (String × α) → List (String × α)
  | [] => [(k, v)]
  | (k₁, v₁) :: rest =>
      if k₁ = k then (k, v) :: rest else (k₁, v₁) :: alistSet k v rest

/-- Round a rational to the nearest integer, ties to even
(the rounding mode of Python `round`). -/
def roundHalfEven (x : ℚ) : ℤ :=
  if x - x.floor < 1/2 then x.floor
  else if 1/2 < x - x.floor then x.floor + 1
  else if x.floor % 2 = 0 then x.floor else x.floor + 1

/-- Python `round(x, 4)` on the rational model of floats. -/
def pyRound4 (x : ℚ) : ℚ :=
  (roundHalfEven (x * 10000) : ℚ) / 10000

/-- `models.AgentCapability` — one roster record per agent. -/
structure AgentCapability where
  agent_id : String
  agent_type : String
  name : String
  skills : List String
  hbar_balance : ℚ
  tasks_completed : Nat
  earnings_hbar : ℚ
  status : String
deriving Repr, DecidableEq

/-- `models.AgentMessage` — one bus message as recorded in the store.
`sequence_number` has the pydantic default `0`. -/
structure AgentMessage where
  topic : String
  sender : String
  message_type : String
  payload : List (String × String)
  sequence_number : Nat := 0
  tx_id : Option String := none
deriving Repr, DecidableEq

/-- `models.TaskRequest`. -/
structure TaskRequest where
  task_id : String
  task_type : String
  payload : String
  budget_hbar : ℚ
  requester : String
deriving Repr, DecidableEq

/-- `models.TaskResult` (`status` defaults to `"completed"`). -/
structure TaskResult where
  task_id : String
  worker_id : String
  task_type : String
  result : String
  cost_hbar : ℚ
  duration_ms : Nat
  tx_id : Option String := none
  status : String := "completed"
deriving Repr, DecidableEq

/-- The settlement record appended by `SettlementAgent.settle_task`
(a plain dict in the source). -/
structure Transaction where
  task_id : String
  worker_id : String
  amount_hbar : ℚ
  tx_id : String
  duration_ms : Nat
  network : String
  mock : Bool
deriving Repr, DecidableEq

/-- `models.EconomyState` — the shared in-memory store. -/
structure EconomyState where
  agents : List AgentCapability
  messages : List AgentMessage
  transactions : List Transaction
  tasks_completed : Nat
  total_hbar_settled : ℚ
deriving Repr, DecidableEq

/-- `EconomyState.add_message`: append, then retain the most recent 500. -/
def add_message (st : EconomyState) (m : AgentMessage) : EconomyState :=
  let ms := st.messages ++ [m]
  { st with messages := if 500 < ms.length then ms.drop (ms.length - 500) else ms }

/-- `EconomyState.add_transaction`: append, then retain the most recent 200. -/
def add_transaction (st : EconomyState) (t : Transaction) : EconomyState :=
  let ts := st.transactions ++ [t]
  { st with transactions := if 200 < ts.length then ts.drop (ts.length - 200) else ts }

/-- Update the `status` field of the roster record with the given id
(`BaseAgent.set_status`, acting on the shared record). -/
def setAgentStatus (agents : List AgentCapability) (aid s : String) :
    List AgentCapability :=
  agents.map (fun a => if a.agent_id = aid then { a with status := s } else a)

/-- Shorthand for `set_status` on the store. -/
def setStatus (st : EconomyState) (aid s : String) : EconomyState :=
  { st with agents := setAgentStatus st.agents aid s }

/-- First roster record with the given id (dict lookup by key). -/
def getAgent (st : EconomyState) (aid : String) : Option AgentCapability :=
  st.agents.find? (fun a => a.agent_id = aid)

/-- `HederaClient` state relevant to the core (mock mode: no live key). -/
structure HederaState where
  account_id : String
  network : String
  topics : List (String × String)
  messageSeq : List (String × Nat)
deriving Repr, DecidableEq

/-- Zero-pad a natural to six digits (Python `f"{seq:06d}"`). -/
def pad6 (n : Nat) : String :=
  let s := toString n
  ⟨List.replicate (6 - s.length) '0'⟩ ++ s

/-- The mock transaction id `f"0.0.5483526@{int(time.time())}.{seq:06d}"`. -/
def mockTxId (now seq : Nat) : String :=
  "0.0.5483526@" ++ toString now ++ "." ++ pad6 seq

/-- `HederaClient.submit_message` (mock mode): fail on an unknown topic,
otherwise bump the per-topic counter and return the mock transaction id. -/
def submit_message (hs : HederaState) (topic_name : String) (now : Nat) :
    Except String (String × HederaState) :=
  match alookup topic_name hs.topics with
  | none => .error ("Topic " ++ topic_name ++ " not initialized")
  | some _ =>
      let seq := (alookup topic_name hs.messageSeq).getD 0 + 1
      .ok (mockTxId now seq,
           { hs with messageSeq := alistSet topic_name seq hs.messageSeq })

deriving instance DecidableEq for Except

/-- The whole process state: the store plus the Hedera client. -/
structure GlobalState where
  econ : EconomyState
  hed : HederaState
deriving Repr, DecidableEq

/-- `BaseAgent.publish`: build an `AgentMessage` (with the default
`sequence_number = 0`), submit it on the bus, record it in the store.
A bus error propagates before the message is recorded. -/
def publish (g : GlobalState) (sender topic msg_type : String)
    (payload : List (String × String)) (now : Nat) :
    Except String String × GlobalState :=
  match submit_message g.hed topic now with
  | .error e => (.error e, g)
  | .ok (tx, hed₁) =>
      (.ok tx,
       { econ := add_message g.econ
           { topic := topic, sender := sender, message_type := msg_type,
             payload := payload, sequence_number := 0, tx_id := some tx },
         hed := hed₁ })

/-- First pass of `BrokerAgent._find_worker`: ids of idle workers having
some skill that is a Python substring of the task type. -/
def skill_candidates (agents : List AgentCapability) (task_type : String) :
    List String :=
  (agents.filter (fun a =>
      a.agent_type = "worker" && a.status = "idle" &&
      a.skills.any (fun skill => strIn skill task_type))).map (·.agent_id)

/-- Fallback pass of `BrokerAgent._find_worker`: ids of all idle workers. -/
def idle_worker_ids (agents : List AgentCapability) : List String :=
  (agents.filter (fun a =>
      a.agent_type = "worker" && a.status = "idle")).map (·.agent_id)

/-- The `tasks_completed` key used by the broker's `min` call. -/
def loadKey (agents : List AgentCapability) (wid : String) : Nat :=
  ((agents.find? (fun a => a.agent_id = wid)).map (·.tasks_completed)).getD 0

/-- `BrokerAgent._find_worker`: skill-matching idle workers, else any idle
worker, then Python `min` by lifetime `tasks_completed`; the id of the
selected worker (resolution to a live instance happens at the call site). -/
def find_worker (agents : List AgentCapability) (task_type : String) :
    Option String :=
  let cands := skill_candidates agents task_type
  let cands := if cands.isEmpty then idle_worker_ids agents else cands
  pyMinBy (loadKey agents) cands

/-- `WorkerAgent.execute_task`. `fulfill` is the outcome of the Claude call
(the fulfillment oracle), `dur` the measured wall-clock duration in ms.
Every exception from the fulfillment backend is caught; the `finally`
block restores `idle` on both paths. -/
def execute_task (wid : String) (req : TaskRequest)
    (fulfill : Except String String) (dur : Nat) (st : EconomyState) :
    TaskResult × EconomyState :=
  let st₁ := setStatus st wid "busy"
  match fulfill with
  | .ok text =>
      let cost := pyRound4 (req.budget_hbar * (8/10))
      let r : TaskResult :=
        { task_id := req.task_id, worker_id := wid, task_type := req.task_type,
          result := text, cost_hbar := cost, duration_ms := dur,
          status := "completed" }
      let st₂ :=
        { st₁ with
          agents := st₁.agents.map (fun a =>
            if a.agent_id = wid then
              { a with tasks_completed := a.tasks_completed + 1,
                       earnings_hbar := a.earnings_hbar + cost }
            else a),
          tasks_completed := st₁.tasks_completed + 1 }
      (r, setStatus st₂ wid "idle")
  | .error e =>
      let r : TaskResult :=
        { task_id := req.task_id, worker_id := wid, task_type := req.task_type,
          result := "Task failed: " ++ e.take 200, cost_hbar := 0,
          duration_ms := dur, status := "failed" }
      (r, setStatus st₁ wid "idle")

/-- The value returned by `BrokerAgent.submit_task`: either `result.dict()`
of a `TaskResult`, or the no-worker failure dict. -/
inductive SubmitOutcome where
  | done (r : TaskResult)
  | noWorker (task_id : String) (error : String)
deriving Repr, DecidableEq

/-- `BrokerAgent.submit_task`. `liveWorkers` is the set of agent ids that
resolve to live `WorkerAgent` instances via `main.worker_agents`; an id
outside it resolves to the plain roster record and takes the synthesized
result branch. `fulfill`/`dur` parameterize the worker's execution,
`now` the mock clock. A raised exception carries the state at raise time;
there is no `finally` in this function. -/
def submit_task (brokerId : String) (liveWorkers : List String)
    (fulfill : Except String String) (dur now : Nat)
    (req : TaskRequest) (g : GlobalState) :
    Except String SubmitOutcome × GlobalState :=
  let g₁ := { g with econ := setStatus g.econ brokerId "busy" }
  match publish g₁ brokerId "tasks" "TASK_REQUEST"
      [("task_id", req.task_id), ("task_type", req.task_type),
       ("payload_preview", req.payload.take 100),
       ("budget_hbar", toString req.budget_hbar),
       ("requester", req.requester)] now with
  | (.error e, g₂) => (.error e, g₂)
  | (.ok _, g₂) =>
    match find_worker g₂.econ.agents req.task_type with
    | none =>
        (.ok (.noWorker req.task_id
           ("No worker available for task type: " ++ req.task_type)),
         { g₂ with econ := setStatus g₂.econ brokerId "idle" })
    | some wid =>
      match publish g₂ brokerId "tasks" "TASK_ASSIGN"
          [("task_id", req.task_id), ("worker_id", wid),
           ("task_type", req.task_type),
           ("budget_hbar", toString req.budget_hbar)] now with
      | (.error e, g₃) => (.error e, g₃)
      | (.ok _, g₃) =>
        let step : TaskResult × EconomyState :=
          if wid ∈ liveWorkers then
            execute_task wid req fulfill dur g₃.econ
          else
            ({ task_id := req.task_id, worker_id := wid,
               task_type := req.task_type, result := "Task completed",
               cost_hbar := req.budget_hbar * (8/10), duration_ms := 500 },
             g₃.econ)
        let g₄ := { g₃ with econ := step.2 }
        match publish g₄ brokerId "results" "TASK_RESULT"
            [("task_id", step.1.task_id), ("worker_id", step.1.worker_id),
             ("cost_hbar", toString step.1.cost_hbar),
             ("duration_ms", toString step.1.duration_ms),
             ("status", step.1.status)] now with
        | (.error e, g₅) => (.error e, g₅)
        | (.ok _, g₅) =>
            (.ok (.done step.1), { g₅ with econ := setStatus g₅.econ brokerId "idle" })

/-- `SettlementAgent._get_worker_account`: the demo placeholder resolves to
the operator account. -/
def get_worker_account (hs : HederaState) (_worker_id : String) : String :=
  hs.account_id

/-- `SettlementAgent.settle_task`. `transfer` is the outcome of
`HederaClient.transfer_hbar`; `dur`/`now` abstract the wall clock. The
`try/except/finally` re-raises any failure after restoring `idle`. -/
def settle_task (settlementId : String) (task_id worker_id : String)
    (amount_hbar : ℚ) (transfer : Except String String) (dur now : Nat)
    (g : GlobalState) : Except String String × GlobalState :=
  let g₁ := { g with econ := setStatus g.econ settlementId "busy" }
  let worker_account := get_worker_account g₁.hed worker_id
  match transfer with
  | .error e =>
      (.error e, { g₁ with econ := setStatus g₁.econ settlementId "idle" })
  | .ok tx_id =>
    match publish g₁ settlementId "payments" "PAYMENT"
        [("task_id", task_id), ("worker_id", worker_id),
         ("worker_account", worker_account),
         ("amount_hbar", toString amount_hbar), ("tx_id", tx_id),
         ("settled_at", toString now)] now with
    | (.error e, g₂) =>
        (.error e, { g₂ with econ := setStatus g₂.econ settlementId "idle" })
    | (.ok _, g₂) =>
        let econ₃ :=
          { g₂.econ with total_hbar_settled := g₂.econ.total_hbar_settled + amount_hbar }
        let econ₄ := add_transaction econ₃
          { task_id := task_id, worker_id := worker_id,
            amount_hbar := amount_hbar, tx_id := tx_id, duration_ms := dur,
            network := g₂.hed.network, mock := true }
        (.ok tx_id, { g₂ with econ := setStatus econ₄ settlementId "idle" })

/-- `HederaClient._create_topic` in mock mode: a deterministic function of
the topic memo through the process string hash (`hash(memo) % 9000000 +
1000000`); `pyhash` is the process's fixed string hash. -/
def create_topic (pyhash : String → Int) (memo : String) : String :=
  "0.0." ++ toString (pyhash memo % 9000000 + 1000000)

/-- One step of `HederaClient.ensure_topics`: an env-provided id is loaded,
otherwise a topic is created from the memo `agent-economy-{name}`. -/
def resolve_topic (env : String → Option String) (pyhash : String → Int)
    (name envKey : String) : String :=
  match env envKey with
  | some topic_id => topic_id
  | none => create_topic pyhash ("agent-economy-" ++ name)

/-- `HederaClient.ensure_topics` (mock mode): write the four topic ids into
`_topics` in order registry, tasks, results, payments. -/
def ensure_topics (env : String → Option String) (pyhash : String → Int)
    (topics : List (String × String)) : List (String × String) :=
  alistSet "payments" (resolve_topic env pyhash "payments" "HEDERA_TOPIC_PAYMENTS")
    (alistSet "results" (resolve_topic env pyhash "results" "HEDERA_TOPIC_RESULTS")
      (alistSet "tasks" (resolve_topic env pyhash "tasks" "HEDERA_TOPIC_TASKS")
        (alistSet "registry" (resolve_topic env pyhash "registry" "HEDERA_TOPIC_REGISTRY")
          topics)))

/-- Python `l[i:]` for an arbitrary integer index `i`. -/
def pySliceFrom (xs : List α) (i : Int) : List α :=
  if 0 ≤ i then xs.drop i.toNat else xs.drop (xs.length - (-i).toNat)

/-- `main.get_messages`: the body computes `messages[-limit:]` and returns
it together with the total retained count. -/
def get_messages (msgs : List AgentMessage) (limit : Int) :
    List AgentMessage × Nat :=
  (pySliceFrom msgs (-limit), msgs.length)

/-! ### Helper lemmas: rounding -/

theorem ratFloor_eq_floor (q : ℚ) : (q.floor : ℤ) = ⌊q⌋ := by
  rw [Rat.floor_def', Rat.floor_def]

theorem roundHalfEven_le (x : ℚ) : (roundHalfEven x : ℚ) ≤ x + 1/2 := by
  have h₁ : (⌊x⌋ : ℚ) ≤ x := Int.floor_le x
  have h₂ : x < ⌊x⌋ + 1 := Int.lt_floor_add_one x
  simp only [roundHalfEven, ratFloor_eq_floor]
  split_ifs <;> push_cast <;> linarith

theorem le_roundHalfEven (x : ℚ) : x - 1/2 ≤ (roundHalfEven x : ℚ) := by
  have h₁ : (⌊x⌋ : ℚ) ≤ x := Int.floor_le x
  have h₂ : x < ⌊x⌋ + 1 := Int.lt_floor_add_one x
  simp only [roundHalfEven, ratFloor_eq_floor]
  split_ifs <;> push_cast <;> linarith

/-- Evaluation rule for `roundHalfEven` strictly above a half. -/
theorem roundHalfEven_eq_succ (x : ℚ) (f : ℤ)
    (h₁ : (f : ℚ) + 1/2 < x) (h₂ : x < f + 1) : roundHalfEven x = f + 1 := by
  have hf : ⌊x⌋ = f := Int.floor_eq_iff.mpr ⟨by linarith, by push_cast; linarith⟩
  simp only [roundHalfEven, ratFloor_eq_floor, hf]
  rw [if_neg (by push_cast; linarith), if_pos (by push_cast; linarith)]

/-- Evaluation rule for `roundHalfEven` strictly below a half. -/
theorem roundHalfEven_eq_self (x : ℚ) (f : ℤ)
    (h₁ : (f : ℚ) ≤ x) (h₂ : x < f + 1/2) : roundHalfEven x = f := by
  have hf : ⌊x⌋ = f := Int.floor_eq_iff.mpr ⟨by linarith, by push_cast; linarith⟩
  simp only [roundHalfEven, ratFloor_eq_floor, hf]
  rw [if_pos (by push_cast; linarith)]

/-- The worker-share rounding stays within `[0, budget]` once the budget is
at least `1/4000` HBAR. -/
theorem pyRound4_share_bounds (b : ℚ) (hb : 1/4000 ≤ b) :
    0 ≤ pyRound4 (b * (8/10)) ∧ pyRound4 (b * (8/10)) ≤ b := by
  have hup : (roundHalfEven (b * (8/10) * 10000) : ℚ) ≤ b * (8/10) * 10000 + 1/2 :=
    roundHalfEven_le _
  have hlo : b * (8/10) * 10000 - 1/2 ≤ (roundHalfEven (b * (8/10) * 10000) : ℚ) :=
    le_roundHalfEven _
  constructor
  · apply div_nonneg _ (by norm_num)
    linarith
  · rw [pyRound4, div_le_iff₀ (by norm_num : (0:ℚ) < 10000)]
    linarith

/-! ### Helper lemmas: Python `min` -/

theorem pyMinBy_foldl_mem (key : α → Nat) (xs : List α) (b : α) :
    xs.foldl (fun b y => if key y < key b then y else b) b ∈ b :: xs := by
  induction xs generalizing b with
  | nil => simp
  | cons x xs ih =>
      simp only [List.foldl_cons]
      by_cases hc : key x < key b
      · simp only [if_pos hc]
        rcases List.mem_cons.mp (ih x) with h | h
        · rw [h]; simp
        · simp [List.mem_cons, h]
      · simp only [if_neg hc]
        rcases List.mem_cons.mp (ih b) with h | h
        · rw [h]; simp
        · simp [List.mem_cons, h]

theorem pyMinBy_foldl_le (key : α → Nat) (xs : List α) (b : α) :
    key (xs.foldl (fun b y => if key y < key b then y else b) b) ≤ key b ∧
    ∀ y ∈ xs, key (xs.foldl (fun b y => if key y < key b then y else b) b) ≤ key y := by
  induction xs generalizing b with
  | nil => simp
  | cons x xs ih =>
      simp only [List.foldl_cons]
      by_cases hc : key x < key b
      · simp only [if_pos hc]
        obtain ⟨h₁, h₂⟩ := ih x
        refine ⟨le_trans h₁ (Nat.le_of_lt hc), ?_⟩
        intro y hy
        rcases List.mem_cons.mp hy with rfl | hy
        · exact h₁
        · exact h₂ y hy
      · simp only [if_neg hc]
        obtain ⟨h₁, h₂⟩ := ih b
        refine ⟨h₁, ?_⟩
        intro y hy
        rcases List.mem_cons.mp hy with rfl | hy
        · exact le_trans h₁ (Nat.le_of_not_lt hc)
        · exact h₂ y hy

theorem pyMinBy_mem (key : α → Nat) (l : List α) (x : α)
    (h : pyMinBy key l = some x) : x ∈ l := by
  cases l with
  | nil => simp [pyMinBy] at h
  | cons a as =>
      simp only [pyMinBy, Option.some.injEq] at h
      have := pyMinBy_foldl_mem key as a
      rw [h] at this
      exact this

theorem pyMinBy_le (key : α → Nat) (l : List α) (x : α)
    (h : pyMinBy key l = some x) : ∀ y ∈ l, key x ≤ key y := by
  cases l with
  | nil => simp [pyMinBy] at h
  | cons a as =>
      simp only [pyMinBy, Option.some.injEq] at h
      obtain ⟨h₁, h₂⟩ := pyMinBy_foldl_le key as a
      rw [h] at h₁ h₂
      intro y hy
      rcases List.mem_cons.mp hy with rfl | hy
      · exact h₁
      · exact h₂ y hy

theorem pyMinBy_eq_none_iff (key : α → Nat) (l : List α) :
    pyMinBy key l = none ↔ l = [] := by
  cases l <;> simp [pyMinBy]

/-! ### Helper lemmas: association lists and roster updates -/

theorem alookup_alistSet_self (k : String) (v : α) (l : List (String × α)) :
    alookup k (alistSet k v l) = some v := by
  induction l with
  | nil => simp [alookup, alistSet]
  | cons p l ih =>
      by_cases h : p.1 = k
      · simp [alistSet, alookup, h]
      · simp [alistSet, alookup, h, ih]

theorem alookup_alistSet_ne (k k' : String) (v : α) (l : List (String × α))
    (h : k' ≠ k) : alookup k (alistSet k' v l) = alookup k l := by
  induction l with
  | nil => simp [alookup, alistSet, h]
  | cons p l ih =>
      obtain ⟨k₁, v₁⟩ := p
      by_cases hp : k₁ = k'
      · simp [alistSet, alookup, hp, h, h.symm]
      · by_cases hk : k₁ = k <;> simp [alistSet, alookup, hp, hk, ih, Ne.symm h]

theorem alistSet_of_alookup_eq (k : String) (v : α) (l : List (String × α))
    (h : alookup k l = some v) : alistSet k v l = l := by
  induction l with
  | nil => simp [alookup] at h
  | cons p l ih =>
      by_cases hp : p.1 = k
      · simp only [alookup, hp, if_pos rfl, Option.some.injEq] at h
        cases p
        simp_all [alistSet]
      · simp only [alookup, hp, if_neg hp] at h
        simp [alistSet, hp, ih h]

theorem find?_map_update (l : List AgentCapability) (wid : String)
    (f : AgentCapability → AgentCapability)
    (hid : ∀ a, (f a).agent_id = a.agent_id) :
    (l.map (fun a => if a.agent_id = wid then f a else a)).find?
        (fun a => a.agent_id = wid)
      = (l.find? (fun a => a.agent_id = wid)).map f := by
  induction l with
  | nil => simp
  | cons a l ih =>
      by_cases h : a.agent_id = wid
      · simp [List.find?, h, hid]
      · simp [List.find?, h, ih]

theorem find?_map_update_ne (l : List AgentCapability) (wid bid : String)
    (f : AgentCapability → AgentCapability)
    (hid : ∀ a, (f a).agent_id = a.agent_id) (hne : bid ≠ wid) :
    (l.map (fun a => if a.agent_id = wid then f a else a)).find?
        (fun a => a.agent_id = bid)
      = l.find? (fun a => a.agent_id = bid) := by
  induction l with
  | nil => simp
  | cons a l ih =>
      by_cases h : a.agent_id = wid
      · have hwb : ¬ wid = bid := fun hc => hne hc.symm
        simp [List.find?, h, hid, hwb, ih]
      · simp [List.find?, h, ih]

theorem getAgent_setStatus_self (st : EconomyState) (aid s : String) :
    getAgent (setStatus st aid s) aid
      = (getAgent st aid).map (fun a => { a with status := s }) := by
  simp only [getAgent, setStatus, setAgentStatus]
  exact find?_map_update _ _ _ (fun _ => rfl)

theorem getAgent_setStatus_ne (st : EconomyState) (aid bid s : String)
    (h : bid ≠ aid) : getAgent (setStatus st aid s) bid = getAgent st bid := by
  simp only [getAgent, setStatus, setAgentStatus]
  exact find?_map_update_ne _ _ _ _ (fun _ => rfl) h

/-! ### Fixtures for witnesses and counterexamples -/

/-- A roster record of an idle summarizer worker. -/
def wA : AgentCapability :=
  { agent_id := "worker-1", agent_type := "worker", name := "Worker-summarizer",
    skills := ["summarize", "tldr", "abstract"], hbar_balance := 10,
    tasks_completed := 0, earnings_hbar := 0, status := "idle" }

/-- A roster record of an idle data-analyst worker with one prior task. -/
def wB : AgentCapability :=
  { agent_id := "worker-2", agent_type := "worker", name := "Worker-data-analyst",
    skills := ["analyze", "stats", "chart"], hbar_balance := 10,
    tasks_completed := 1, earnings_hbar := 1, status := "idle" }

/-- A roster record of the broker agent. -/
def bA : AgentCapability :=
  { agent_id := "broker-1", agent_type := "broker", name := "Broker Agent",
    skills := ["match", "assign", "route"], hbar_balance := 10,
    tasks_completed := 0, earnings_hbar := 0, status := "idle" }

/-- A roster record of the settlement agent. -/
def sA : AgentCapability :=
  { agent_id := "settlement-1", agent_type := "settlement", name := "Settlement Agent",
    skills := ["pay", "settle", "transfer"], hbar_balance := 10,
    tasks_completed := 0, earnings_hbar := 0, status := "idle" }

/-- A store with the one idle worker `wA`. -/
def stA : EconomyState :=
  { agents := [wA], messages := [], transactions := [],
    tasks_completed := 0, total_hbar_settled := 0 }

/-- A summarize task with budget 0.5 HBAR. -/
def reqA : TaskRequest :=
  { task_id := "task-1", task_type := "summarize", payload := "X",
    budget_hbar := 1/2, requester := "user" }

/-- A summarize task with the degenerate budget 0.00007 HBAR. -/
def reqTiny : TaskRequest :=
  { task_id := "task-2", task_type := "summarize", payload := "X",
    budget_hbar := 7/100000, requester := "user" }

/-- The roster record after the success path of `execute_task`: status was
set `busy`, the counters were bumped, and `idle` was restored. -/
theorem execute_task_ok_getAgent (wid : String) (req : TaskRequest)
    (text : String) (dur : Nat) (st : EconomyState) (a : AgentCapability)
    (ha : getAgent st wid = some a) :
    getAgent (execute_task wid req (.ok text) dur st).2 wid
      = some { a with
               tasks_completed := a.tasks_completed + 1,
               earnings_hbar := a.earnings_hbar + pyRound4 (req.budget_hbar * (8/10)),
               status := "idle" } := by
  simp only [execute_task, getAgent, setStatus, setAgentStatus] at ha ⊢
  rw [find?_map_update _ wid (fun a => { a with status := "idle" }) (fun _ => rfl),
      find?_map_update _ wid (fun a =>
        { a with tasks_completed := a.tasks_completed + 1,
                 earnings_hbar := a.earnings_hbar + pyRound4 (req.budget_hbar * (8/10)) })
        (fun _ => rfl),
      find?_map_update _ wid (fun a => { a with status := "busy" }) (fun _ => rfl), ha]
  rfl

/-- The roster record after the failure path of `execute_task`: only the
status changed, back to `idle`. -/
theorem execute_task_err_getAgent (wid : String) (req : TaskRequest)
    (e : String) (dur : Nat) (st : EconomyState) (a : AgentCapability)
    (ha : getAgent st wid = some a) :
    getAgent (execute_task wid req (.error e) dur st).2 wid
      = some { a with status := "idle" } := by
  simp only [execute_task, getAgent, setStatus, setAgentStatus] at ha ⊢
  rw [find?_map_update _ wid (fun a => { a with status := "idle" }) (fun _ => rfl),
      find?_map_update _ wid (fun a => { a with status := "busy" }) (fun _ => rfl), ha]
  rfl

/-- C1 (amended): when the fulfillment backend returns a result, the
`TaskResult` has status `"completed"` and cost exactly
`round(budget × 0.8, 4)`; the worker's lifetime `tasks_completed` and
`earnings_hbar` are incremented by one and by the cost, and the store's
global `tasks_completed` is incremented; and whenever the budget is at least
`0.00025` HBAR the completed task satisfies `0 ≤ cost ≤ budget`. (The
inequality of the original claim, for every budget, fails: rounding can push
the cost above a budget below `0.00025`.) -/
theorem C1_execute_task_success_amended (wid : String) (req : TaskRequest)
    (text : String) (dur : Nat) (st : EconomyState) (a : AgentCapability)
    (ha : getAgent st wid = some a) :
    (execute_task wid req (.ok text) dur st).1.status = "completed" ∧
    (execute_task wid req (.ok text) dur st).1.cost_hbar
      = pyRound4 (req.budget_hbar * (8/10)) ∧
    getAgent (execute_task wid req (.ok text) dur st).2 wid
      = some { a with
               tasks_completed := a.tasks_completed + 1,
               earnings_hbar := a.earnings_hbar + pyRound4 (req.budget_hbar * (8/10)),
               status := "idle" } ∧
    (execute_task wid req (.ok text) dur st).2.tasks_completed
      = st.tasks_completed + 1 ∧
    (1/4000 ≤ req.budget_hbar →
      0 ≤ (execute_task wid req (.ok text) dur st).1.cost_hbar ∧
      (execute_task wid req (.ok text) dur st).1.cost_hbar ≤ req.budget_hbar) :=
  ⟨rfl, rfl, execute_task_ok_getAgent wid req text dur st a ha, rfl,
   fun hb => pyRound4_share_bounds req.budget_hbar hb⟩

/-- C1 witness at a concrete input: one idle worker, a summarize task with
budget 0.5 HBAR. -/
theorem C1_witness :
    (execute_task "worker-1" reqA (.ok "done") 10 stA).1.status = "completed" ∧
    (execute_task "worker-1" reqA (.ok "done") 10 stA).1.cost_hbar
      = pyRound4 (reqA.budget_hbar * (8/10)) ∧
    getAgent (execute_task "worker-1" reqA (.ok "done") 10 stA).2 "worker-1"
      = some { wA with
               tasks_completed := wA.tasks_completed + 1,
               earnings_hbar := wA.earnings_hbar + pyRound4 (reqA.budget_hbar * (8/10)),
               status := "idle" } ∧
    (execute_task "worker-1" reqA (.ok "done") 10 stA).2.tasks_completed
      = stA.tasks_completed + 1 ∧
    (0 ≤ (execute_task "worker-1" reqA (.ok "done") 10 stA).1.cost_hbar ∧
     (execute_task "worker-1" reqA (.ok "done") 10 stA).1.cost_hbar ≤ reqA.budget_hbar) := by
  have h := C1_execute_task_success_amended "worker-1" reqA "done" 10 stA wA rfl
  exact ⟨h.1, h.2.1, h.2.2.1, h.2.2.2.1,
         h.2.2.2.2 (by norm_num [reqA])⟩

/-- C1 counterexample: with budget `0.00007` HBAR the task completes with
cost `round(0.000056, 4) = 0.0001 > budget`, refuting `cost ≤ budget` as
stated for every completed task. -/
theorem C1_cost_exceeds_budget :
    (execute_task "worker-1" reqTiny (.ok "done") 10 stA).1.status = "completed" ∧
    ¬ ((execute_task "worker-1" reqTiny (.ok "done") 10 stA).1.cost_hbar
        ≤ reqTiny.budget_hbar) := by
  have hx : pyRound4 ((7/100000 : ℚ) * (8/10)) = 1/10000 := by
    rw [pyRound4, roundHalfEven_eq_succ ((7/100000 : ℚ) * (8/10) * 10000) 0
          (by norm_num) (by norm_num)]
    norm_num
  refine ⟨rfl, ?_⟩
  show ¬ (pyRound4 ((7/100000 : ℚ) * (8/10)) ≤ (7/100000 : ℚ))
  rw [hx]
  norm_num

/-- C3: a fulfillment failure is caught inside `execute_task` and reported
as a `TaskResult` with status `"failed"`, cost `0`, and a truncated error
summary; counters and message history are untouched, and on every path —
success or failure — the worker's status is back to `"idle"` on return
(the embedding of `execute_task` is a total function into `TaskResult`, so
no exception reaches the Broker). -/
theorem C3_execute_task_failure (wid : String) (req : TaskRequest)
    (e : String) (dur : Nat) (st : EconomyState) (a : AgentCapability)
    (ha : getAgent st wid = some a) :
    (execute_task wid req (.error e) dur st).1
      = { task_id := req.task_id, worker_id := wid, task_type := req.task_type,
          result := "Task failed: " ++ e.take 200, cost_hbar := 0,
          duration_ms := dur, tx_id := none, status := "failed" } ∧
    (execute_task wid req (.error e) dur st).2.messages = st.messages ∧
    (execute_task wid req (.error e) dur st).2.tasks_completed = st.tasks_completed ∧
    getAgent (execute_task wid req (.error e) dur st).2 wid
      = some { a with status := "idle" } ∧
    (∀ fulfill : Except String String,
      (getAgent (execute_task wid req fulfill dur st).2 wid).map (·.status)
        = some "idle") := by
  refine ⟨rfl, rfl, rfl, execute_task_err_getAgent wid req e dur st a ha, ?_⟩
  intro fulfill
  cases fulfill with
  | ok text => rw [execute_task_ok_getAgent wid req text dur st a ha]; rfl
  | error e₁ => rw [execute_task_err_getAgent wid req e₁ dur st a ha]; rfl

/-- C3 witness at a concrete input: the fulfillment call fails with message
`"boom"` on the one-worker store. -/
theorem C3_witness :
    (execute_task "worker-1" reqA (.error "boom") 10 stA).1
      = { task_id := reqA.task_id, worker_id := "worker-1",
          task_type := reqA.task_type,
          result := "Task failed: " ++ "boom".take 200, cost_hbar := 0,
          duration_ms := 10, tx_id := none, status := "failed" } ∧
    (execute_task "worker-1" reqA (.error "boom") 10 stA).2.messages = stA.messages ∧
    getAgent (execute_task "worker-1" reqA (.error "boom") 10 stA).2 "worker-1"
      = some { wA with status := "idle" } ∧
    (getAgent (execute_task "worker-1" reqA (.ok "done") 10 stA).2 "worker-1").map
        (·.status) = some "idle" := by
  have h := C3_execute_task_failure "worker-1" reqA "boom" 10 stA wA rfl
  exact ⟨h.1, h.2.1, h.2.2.2.1, h.2.2.2.2 (.ok "done")⟩

/-- C8: `ensure_topics` run twice over the same configuration (same
environment-provided ids, same process string hash) reproduces the same
name→topic-id mapping: each of the four writes of the second call stores
the value the key already holds. -/
theorem C8_ensure_topics_idempotent (env : String → Option String)
    (pyhash : String → Int) (topics : List (String × String)) :
    ensure_topics env pyhash (ensure_topics env pyhash topics)
      = ensure_topics env pyhash topics := by
  have hR : alookup "registry" (ensure_topics env pyhash topics)
      = some (resolve_topic env pyhash "registry" "HEDERA_TOPIC_REGISTRY") := by
    unfold ensure_topics
    rw [alookup_alistSet_ne _ _ _ _ (by decide), alookup_alistSet_ne _ _ _ _ (by decide),
        alookup_alistSet_ne _ _ _ _ (by decide), alookup_alistSet_self]
  have hT : alookup "tasks" (ensure_topics env pyhash topics)
      = some (resolve_topic env pyhash "tasks" "HEDERA_TOPIC_TASKS") := by
    unfold ensure_topics
    rw [alookup_alistSet_ne _ _ _ _ (by decide), alookup_alistSet_ne _ _ _ _ (by decide),
        alookup_alistSet_self]
  have hS : alookup "results" (ensure_topics env pyhash topics)
      = some (resolve_topic env pyhash "results" "HEDERA_TOPIC_RESULTS") := by
    unfold ensure_topics
    rw [alookup_alistSet_ne _ _ _ _ (by decide), alookup_alistSet_self]
  have hP : alookup "payments" (ensure_topics env pyhash topics)
      = some (resolve_topic env pyhash "payments" "HEDERA_TOPIC_PAYMENTS") := by
    unfold ensure_topics
    rw [alookup_alistSet_self]
  show alistSet "payments" (resolve_topic env pyhash "payments" "HEDERA_TOPIC_PAYMENTS")
      (alistSet "results" (resolve_topic env pyhash "results" "HEDERA_TOPIC_RESULTS")
        (alistSet "tasks" (resolve_topic env pyhash "tasks" "HEDERA_TOPIC_TASKS")
          (alistSet "registry" (resolve_topic env pyhash "registry" "HEDERA_TOPIC_REGISTRY")
            (ensure_topics env pyhash topics))))
      = ensure_topics env pyhash topics
  rw [alistSet_of_alookup_eq _ _ _ hR, alistSet_of_alookup_eq _ _ _ hT,
      alistSet_of_alookup_eq _ _ _ hS, alistSet_of_alookup_eq _ _ _ hP]

/-- C10: the presentation-facing message query; `limit = 0` returns the whole
retained history (`messages[-0:]` is the full list), and any `limit ≥ 1`
returns the `limit` most recent messages (the length-`min limit total`
suffix, in order) together with the total retained count. -/
theorem C10_get_messages_limit_semantics (msgs : List AgentMessage) (limit : Int) :
    (limit = 0 → get_messages msgs limit = (msgs, msgs.length)) ∧
    (1 ≤ limit →
       (get_messages msgs limit).1 = msgs.drop (msgs.length - limit.toNat) ∧
       (get_messages msgs limit).1.length = min limit.toNat msgs.length ∧
       (get_messages msgs limit).2 = msgs.length) := by
  constructor
  · rintro rfl
    simp [get_messages, pySliceFrom]
  · intro hl
    have hneg : ¬ (0 ≤ -limit) := by omega
    refine ⟨?_, ?_, rfl⟩
    · simp [get_messages, pySliceFrom, hneg]
    · simp only [get_messages, pySliceFrom, hneg, if_false, neg_neg,
        List.length_drop]
      omega

/-! ### Helper lemmas: worker selection and store updates -/

theorem skill_candidates_subset (agents : List AgentCapability) (t : String)
    (wid : String) (h : wid ∈ skill_candidates agents t) :
    wid ∈ idle_worker_ids agents := by
  simp only [skill_candidates, List.mem_map, List.mem_filter] at h
  obtain ⟨a, ⟨haMem, hcond⟩, rfl⟩ := h
  simp only [Bool.and_eq_true] at hcond
  simp only [idle_worker_ids, List.mem_map, List.mem_filter]
  exact ⟨a, ⟨haMem, by simp [Bool.and_eq_true, hcond.1.1, hcond.1.2]⟩, rfl⟩

theorem idle_worker_ids_setStatus_busy (agents : List AgentCapability)
    (aid : String) (h : idle_worker_ids agents = []) :
    idle_worker_ids (setAgentStatus agents aid "busy") = [] := by
  simp only [idle_worker_ids, List.map_eq_nil_iff, List.filter_eq_nil_iff] at h ⊢
  intro x hx
  rcases List.mem_map.mp hx with ⟨a, haMem, rfl⟩
  by_cases hc : a.agent_id = aid
  · simp [hc]
  · simpa [hc] using h a haMem

theorem find_worker_eq_none (agents : List AgentCapability) (t : String)
    (h : idle_worker_ids agents = []) : find_worker agents t = none := by
  have hsc : skill_candidates agents t = [] := by
    cases hs : skill_candidates agents t with
    | nil => rfl
    | cons w ws =>
        exfalso
        have hw : w ∈ idle_worker_ids agents :=
          skill_candidates_subset agents t w (hs ▸ List.mem_cons_self w ws)
        rw [h] at hw
        exact absurd hw (List.not_mem_nil w)
  simp [find_worker, hsc, h, pyMinBy]

theorem counters_setAgentStatus (ag : List AgentCapability) (aid s : String) :
    (setAgentStatus ag aid s).map
        (fun b => (b.agent_id, b.tasks_completed, b.earnings_hbar))
      = ag.map (fun b => (b.agent_id, b.tasks_completed, b.earnings_hbar)) := by
  simp only [setAgentStatus, List.map_map]
  apply List.map_congr_left
  intro a _
  by_cases h : a.agent_id = aid <;> simp [h]

theorem getAgent_add_message (st : EconomyState) (m : AgentMessage) (aid : String) :
    getAgent (add_message st m) aid = getAgent st aid := rfl

theorem add_message_mem (st : EconomyState) (m m' : AgentMessage)
    (h : m' ∈ (add_message st m).messages) : m' ∈ st.messages ∨ m' = m := by
  simp only [add_message] at h
  have hsub : m' ∈ st.messages ++ [m] := by
    by_cases hlen : 500 < (st.messages ++ [m]).length
    · rw [if_pos hlen] at h
      exact List.mem_of_mem_drop h
    · rwa [if_neg hlen] at h
  rcases List.mem_append.mp hsub with h₁ | h₁
  · exact Or.inl h₁
  · exact Or.inr (List.mem_singleton.mp h₁)

/-- C2: worker selection considers exactly the idle workers; among them it
keeps those advertising a skill that is a substring of the task type,
falling back to every idle worker only when no skill matches; the selected
worker carries the minimum lifetime `tasks_completed` over the considered
candidates, and no worker is returned exactly when no idle worker exists.
The selection is a function of the roster and task type, hence
deterministic. -/
theorem C2_find_worker_selection (agents : List AgentCapability) (t : String) :
    (find_worker agents t = none ↔ idle_worker_ids agents = []) ∧
    ∀ wid, find_worker agents t = some wid →
      wid ∈ idle_worker_ids agents ∧
      (skill_candidates agents t ≠ [] →
         wid ∈ skill_candidates agents t ∧
         ∀ w ∈ skill_candidates agents t, loadKey agents wid ≤ loadKey agents w) ∧
      (skill_candidates agents t = [] →
         ∀ w ∈ idle_worker_ids agents, loadKey agents wid ≤ loadKey agents w) := by
  cases hsc : skill_candidates agents t with
  | nil =>
      have hfw : find_worker agents t = pyMinBy (loadKey agents) (idle_worker_ids agents) := by
        simp [find_worker, hsc]
      refine ⟨by rw [hfw]; exact pyMinBy_eq_none_iff _ _, ?_⟩
      intro wid hwid
      rw [hfw] at hwid
      refine ⟨pyMinBy_mem _ _ _ hwid, ?_, ?_⟩
      · intro hne; exact absurd rfl hne
      · intro _ w hw; exact pyMinBy_le _ _ _ hwid w hw
  | cons w₀ ws =>
      have hfw : find_worker agents t = pyMinBy (loadKey agents) (w₀ :: ws) := by
        simp [find_worker, hsc]
      have hsub : ∀ x ∈ w₀ :: ws, x ∈ idle_worker_ids agents := by
        intro x hx
        exact skill_candidates_subset agents t x (hsc ▸ hx)
      constructor
      · rw [hfw]
        have hidle : idle_worker_ids agents ≠ [] := by
          intro h0
          have := hsub w₀ (List.mem_cons_self w₀ ws)
          rw [h0] at this
          exact absurd this (List.not_mem_nil w₀)
        simp [pyMinBy, hidle]
      · intro wid hwid
        rw [hfw] at hwid
        refine ⟨hsub wid (pyMinBy_mem _ _ _ hwid), ?_, ?_⟩
        · intro _
          exact ⟨pyMinBy_mem _ _ _ hwid, pyMinBy_le _ _ _ hwid⟩
        · intro h0
          exact absurd h0 (List.cons_ne_nil w₀ ws)

/-! ### Fixtures: bus states and stores for the broker/settlement claims -/

/-- A mock-mode client with all four topics ensured and fresh counters. -/
def hedA : HederaState :=
  { account_id := "0.0.5483526", network := "testnet",
    topics := [("registry", "0.0.1001"), ("tasks", "0.0.1002"),
               ("results", "0.0.1003"), ("payments", "0.0.1004")],
    messageSeq := [] }

/-- A mock-mode client on which the `results` topic was never ensured. -/
def hedNoResults : HederaState :=
  { account_id := "0.0.5483526", network := "testnet",
    topics := [("registry", "0.0.1001"), ("tasks", "0.0.1002")],
    messageSeq := [] }

/-- Global state with the one idle worker and all topics. -/
def gA : GlobalState := { econ := stA, hed := hedA }

/-- Store with the broker and a busy worker (no idle worker of any skill). -/
def stBusy : EconomyState :=
  { agents := [bA, { wA with status := "busy" }], messages := [],
    transactions := [], tasks_completed := 0, total_hbar_settled := 0 }

/-- Global state with no idle worker. -/
def gBusy : GlobalState := { econ := stBusy, hed := hedA }

/-- Store with the broker and the idle worker. -/
def stBroker : EconomyState :=
  { agents := [bA, wA], messages := [], transactions := [],
    tasks_completed := 0, total_hbar_settled := 0 }

/-- Global state for a normal brokered submission. -/
def gBroker : GlobalState := { econ := stBroker, hed := hedA }

/-- Global state where the TASK_RESULT publication will fail. -/
def gNoResults : GlobalState := { econ := stBroker, hed := hedNoResults }

/-- Store with the settlement agent only. -/
def stSettle : EconomyState :=
  { agents := [sA], messages := [], transactions := [],
    tasks_completed := 0, total_hbar_settled := 0 }

/-- Global state for settlement runs. -/
def gSettle : GlobalState := { econ := stSettle, hed := hedA }

/-- C4: when the HBAR transfer fails, `settle_task` propagates the failure
to its caller; the store's `total_hbar_settled`, message history and
transaction history are untouched (no PAYMENT message, no Transaction
record), and the settlement agent's status is back to `idle` in the state
the exception leaves behind. -/
theorem C4_settle_transfer_failure (settlementId task_id worker_id : String)
    (amount : ℚ) (e : String) (dur now : Nat) (g : GlobalState)
    (a : AgentCapability) (ha : getAgent g.econ settlementId = some a) :
    (settle_task settlementId task_id worker_id amount (.error e) dur now g).1
      = .error e ∧
    (settle_task settlementId task_id worker_id amount (.error e) dur now g).2.econ.total_hbar_settled
      = g.econ.total_hbar_settled ∧
    (settle_task settlementId task_id worker_id amount (.error e) dur now g).2.econ.messages
      = g.econ.messages ∧
    (settle_task settlementId task_id worker_id amount (.error e) dur now g).2.econ.transactions
      = g.econ.transactions ∧
    getAgent (settle_task settlementId task_id worker_id amount (.error e) dur now g).2.econ
        settlementId = some { a with status := "idle" } := by
  refine ⟨rfl, rfl, rfl, rfl, ?_⟩
  show getAgent (setStatus (setStatus g.econ settlementId "busy") settlementId "idle")
      settlementId = some { a with status := "idle" }
  rw [getAgent_setStatus_self, getAgent_setStatus_self, ha]
  rfl

/-- C4 witness at a concrete input: a failing transfer over the settlement
store leaves every aggregate unchanged and the agent idle. -/
theorem C4_witness :
    (settle_task "settlement-1" "task-1" "worker-1" 1 (.error "insufficient") 5 111 gSettle).1
      = .error "insufficient" ∧
    (settle_task "settlement-1" "task-1" "worker-1" 1 (.error "insufficient") 5 111 gSettle).2.econ.total_hbar_settled
      = gSettle.econ.total_hbar_settled ∧
    (settle_task "settlement-1" "task-1" "worker-1" 1 (.error "insufficient") 5 111 gSettle).2.econ.messages
      = gSettle.econ.messages ∧
    (settle_task "settlement-1" "task-1" "worker-1" 1 (.error "insufficient") 5 111 gSettle).2.econ.transactions
      = gSettle.econ.transactions ∧
    getAgent (settle_task "settlement-1" "task-1" "worker-1" 1 (.error "insufficient") 5 111 gSettle).2.econ
        "settlement-1" = some { sA with status := "idle" } :=
  C4_settle_transfer_failure "settlement-1" "task-1" "worker-1" 1 "insufficient" 5 111
    gSettle sA rfl

/-! ### The bus's internal sequence counter (C5) -/

/-- Iterated mock submissions on one topic, collecting the per-topic counter
value assigned to each submission (the number embedded in its mock
transaction id). -/
def seqsOf (hs : HederaState) (topic : String) (now : Nat) : Nat → List Nat
  | 0 => []
  | n + 1 =>
      match submit_message hs topic now with
      | .error _ => []
      | .ok (_, hs₁) => (alookup topic hs₁.messageSeq).getD 0 :: seqsOf hs₁ topic now n

theorem seqsOf_consecutive (hs : HederaState) (topic tid : String) (now n : Nat)
    (htopic : alookup topic hs.topics = some tid) :
    seqsOf hs topic now n
      = List.range' ((alookup topic hs.messageSeq).getD 0 + 1) n := by
  induction n generalizing hs with
  | zero => simp [seqsOf]
  | succ n ih =>
      simp only [seqsOf, submit_message, htopic]
      rw [alookup_alistSet_self,
          ih { hs with messageSeq :=
                 alistSet topic ((alookup topic hs.messageSeq).getD 0 + 1) hs.messageSeq }
             htopic,
          alookup_alistSet_self, List.range'_succ]
      rfl

/-- C5 (amended): the bus's internal per-topic sequence counter is assigned
exactly once per publish, by the bus, and its successive values on one topic
are consecutive — starting at one past the current counter, so `1, 2, 3, …`
with no gaps on a fresh topic; the recorded `AgentMessage.sequence_number`
field, however, is never assigned by the bus: every message a publish adds
to the store still carries the model default `0`. (The original claim, read
on the recorded messages, fails — see the counterexample.) -/
theorem C5_sequence_counter_amended (g : GlobalState)
    (sender topic tid msg_type : String) (payload : List (String × String))
    (now n : Nat) (htopic : alookup topic g.hed.topics = some tid) :
    seqsOf g.hed topic now n
      = List.range' ((alookup topic g.hed.messageSeq).getD 0 + 1) n ∧
    (∀ m ∈ (publish g sender topic msg_type payload now).2.econ.messages,
        m ∈ g.econ.messages ∨ m.sequence_number = 0) := by
  refine ⟨seqsOf_consecutive g.hed topic tid now n htopic, ?_⟩
  intro m hm
  simp only [publish, submit_message, htopic] at hm
  rcases add_message_mem _ _ _ hm with h | h
  · exact Or.inl h
  · exact Or.inr (by rw [h])

/-- C5 witness at a concrete input: on the fresh `tasks` topic the first
three submissions are numbered 1, 2, 3, and a publish records a message
that is new and carries `sequence_number = 0`. -/
theorem C5_witness :
    seqsOf gA.hed "tasks" 111 3
      = List.range' ((alookup "tasks" gA.hed.messageSeq).getD 0 + 1) 3 ∧
    (∀ m ∈ (publish gA "broker-1" "tasks" "TASK_REQUEST" [] 111).2.econ.messages,
        m ∈ gA.econ.messages ∨ m.sequence_number = 0) :=
  C5_sequence_counter_amended gA "broker-1" "tasks" "0.0.1002" "TASK_REQUEST" [] 111 3 rfl

/-- C5 counterexample: two publishes on the `tasks` topic record two
messages whose `sequence_number` fields read `[0, 0]` — not a strictly
increasing sequence starting at 1. -/
theorem C5_counterexample :
    ((publish ((publish gA "broker-1" "tasks" "TASK_REQUEST" [] 111).2)
        "broker-1" "tasks" "TASK_ASSIGN" [] 111).2).econ.messages.map
      (fun m => m.sequence_number) = [0, 0] ∧
    ¬ (((publish ((publish gA "broker-1" "tasks" "TASK_REQUEST" [] 111).2)
          "broker-1" "tasks" "TASK_ASSIGN" [] 111).2).econ.messages.map
        (fun m => m.sequence_number) = [1, 2]) :=
  ⟨by decide, by decide⟩

/-! ### Reduction lemmas for `publish` and `submit_task` -/

theorem publish_ok (g : GlobalState) (sender topic tid msg_type : String)
    (payload : List (String × String)) (now : Nat)
    (h : alookup topic g.hed.topics = some tid) :
    publish g sender topic msg_type payload now
      = (.ok (mockTxId now ((alookup topic g.hed.messageSeq).getD 0 + 1)),
         { econ := add_message g.econ
             { topic := topic, sender := sender, message_type := msg_type,
               payload := payload, sequence_number := 0,
               tx_id := some (mockTxId now ((alookup topic g.hed.messageSeq).getD 0 + 1)) },
           hed := { g.hed with
                    messageSeq := alistSet topic
                      ((alookup topic g.hed.messageSeq).getD 0 + 1) g.hed.messageSeq } }) := by
  simp [publish, submit_message, h]

theorem publish_err (g : GlobalState) (sender topic msg_type : String)
    (payload : List (String × String)) (now : Nat)
    (h : alookup topic g.hed.topics = none) :
    publish g sender topic msg_type payload now
      = (.error ("Topic " ++ topic ++ " not initialized"), g) := by
  simp [publish, submit_message, h]

/-- The branch of `submit_task` taken when no idle worker exists: the
TASK_REQUEST event is published, selection fails, the no-worker failure
value is returned with status restored to `idle`. -/
theorem submit_task_noWorker_eq (brokerId : String) (liveWorkers : List String)
    (fulfill : Except String String) (dur now : Nat) (req : TaskRequest)
    (g : GlobalState) (tid : String)
    (htasks : alookup "tasks" g.hed.topics = some tid)
    (hidle : idle_worker_ids g.econ.agents = []) :
    submit_task brokerId liveWorkers fulfill dur now req g
      = (.ok (.noWorker req.task_id
            ("No worker available for task type: " ++ req.task_type)),
         { econ := setStatus (add_message (setStatus g.econ brokerId "busy")
             { topic := "tasks", sender := brokerId, message_type := "TASK_REQUEST",
               payload := [("task_id", req.task_id), ("task_type", req.task_type),
                           ("payload_preview", req.payload.take 100),
                           ("budget_hbar", toString req.budget_hbar),
                           ("requester", req.requester)],
               sequence_number := 0,
               tx_id := some (mockTxId now ((alookup "tasks" g.hed.messageSeq).getD 0 + 1)) })
             brokerId "idle",
           hed := { g.hed with
                    messageSeq := alistSet "tasks"
                      ((alookup "tasks" g.hed.messageSeq).getD 0 + 1) g.hed.messageSeq } }) := by
  have hfwn : find_worker (setAgentStatus g.econ.agents brokerId "busy") req.task_type
      = none :=
    find_worker_eq_none _ _ (idle_worker_ids_setStatus_busy _ _ hidle)
  simp only [submit_task, publish, submit_message, setStatus, add_message, htasks, hfwn]

/-- C6: with no idle worker in the roster, `submit_task` returns the
no-worker failure naming the task type, publishes nothing beyond the
TASK_REQUEST announcement (in particular no TASK_ASSIGN and no
TASK_RESULT), and the broker's status is back to `idle`. -/
theorem C6_no_worker_available (brokerId : String) (liveWorkers : List String)
    (fulfill : Except String String) (dur now : Nat) (req : TaskRequest)
    (g : GlobalState) (tid : String) (a : AgentCapability)
    (htasks : alookup "tasks" g.hed.topics = some tid)
    (hidle : idle_worker_ids g.econ.agents = [])
    (ha : getAgent g.econ brokerId = some a) :
    (submit_task brokerId liveWorkers fulfill dur now req g).1
      = .ok (.noWorker req.task_id
          ("No worker available for task type: " ++ req.task_type)) ∧
    (∀ m ∈ (submit_task brokerId liveWorkers fulfill dur now req g).2.econ.messages,
        m ∈ g.econ.messages ∨ m.message_type = "TASK_REQUEST") ∧
    getAgent (submit_task brokerId liveWorkers fulfill dur now req g).2.econ brokerId
      = some { a with status := "idle" } := by
  rw [submit_task_noWorker_eq brokerId liveWorkers fulfill dur now req g tid htasks hidle]
  refine ⟨rfl, ?_, ?_⟩
  · intro m hm
    have hm' : m ∈ (add_message (setStatus g.econ brokerId "busy")
        { topic := "tasks", sender := brokerId, message_type := "TASK_REQUEST",
          payload := [("task_id", req.task_id), ("task_type", req.task_type),
                      ("payload_preview", req.payload.take 100),
                      ("budget_hbar", toString req.budget_hbar),
                      ("requester", req.requester)],
          sequence_number := 0,
          tx_id := some (mockTxId now ((alookup "tasks" g.hed.messageSeq).getD 0 + 1)) }).messages :=
      hm
    rcases add_message_mem _ _ _ hm' with h | h
    · exact Or.inl h
    · exact Or.inr (by rw [h])
  · rw [getAgent_setStatus_self, getAgent_add_message, getAgent_setStatus_self, ha]
    rfl

/-- C6 witness at a concrete input: every worker is busy, so the submission
fails with the no-worker outcome, only a TASK_REQUEST is recorded, and the
broker ends idle. -/
theorem C6_witness :
    (submit_task "broker-1" ["worker-1"] (.ok "done") 10 111 reqA gBusy).1
      = .ok (.noWorker reqA.task_id
          ("No worker available for task type: " ++ reqA.task_type)) ∧
    (∀ m ∈ (submit_task "broker-1" ["worker-1"] (.ok "done") 10 111 reqA gBusy).2.econ.messages,
        m ∈ gBusy.econ.messages ∨ m.message_type = "TASK_REQUEST") ∧
    getAgent (submit_task "broker-1" ["worker-1"] (.ok "done") 10 111 reqA gBusy).2.econ
        "broker-1" = some { bA with status := "idle" } :=
  C6_no_worker_available "broker-1" ["worker-1"] (.ok "done") 10 111 reqA gBusy
    "0.0.1002" bA rfl rfl rfl

/-! ### Projection lemmas (all definitional) -/

theorem add_message_agents (st : EconomyState) (m : AgentMessage) :
    (add_message st m).agents = st.agents := rfl

theorem add_message_tasks (st : EconomyState) (m : AgentMessage) :
    (add_message st m).tasks_completed = st.tasks_completed := rfl

theorem setStatus_agents (st : EconomyState) (aid s : String) :
    (setStatus st aid s).agents = setAgentStatus st.agents aid s := rfl

theorem setStatus_messages (st : EconomyState) (aid s : String) :
    (setStatus st aid s).messages = st.messages := rfl

theorem setStatus_tasks (st : EconomyState) (aid s : String) :
    (setStatus st aid s).tasks_completed = st.tasks_completed := rfl

theorem execute_task_tasks_ne (wid : String) (req : TaskRequest)
    (e : String) (dur : Nat) (st : EconomyState) :
    (execute_task wid req (.error e) dur st).2.tasks_completed
      = st.tasks_completed := rfl

/-- Any roster record other than the executing worker is untouched by
`execute_task`, on both paths. -/
theorem execute_task_getAgent_ne (wid : String) (req : TaskRequest)
    (fulfill : Except String String) (dur : Nat) (st : EconomyState)
    (bid : String) (h : bid ≠ wid) :
    getAgent (execute_task wid req fulfill dur st).2 bid = getAgent st bid := by
  cases fulfill with
  | ok text =>
      simp only [execute_task, getAgent, setStatus, setAgentStatus]
      rw [find?_map_update_ne _ wid bid (fun a => { a with status := "idle" })
            (fun _ => rfl) h,
          find?_map_update_ne _ wid bid (fun a =>
            { a with tasks_completed := a.tasks_completed + 1,
                     earnings_hbar := a.earnings_hbar + pyRound4 (req.budget_hbar * (8/10)) })
            (fun _ => rfl) h,
          find?_map_update_ne _ wid bid (fun a => { a with status := "busy" })
            (fun _ => rfl) h]
  | error e =>
      simp only [execute_task, getAgent, setStatus, setAgentStatus]
      rw [find?_map_update_ne _ wid bid (fun a => { a with status := "idle" })
            (fun _ => rfl) h,
          find?_map_update_ne _ wid bid (fun a => { a with status := "busy" })
            (fun _ => rfl) h]

/-- C9: when the selected worker id resolves to a plain roster record (it is
not among the live `WorkerAgent` instances), `submit_task` does not execute
the task: it returns a synthesized `TaskResult` with status `"completed"`,
result text `"Task completed"`, `duration_ms = 500`, and
`cost_hbar = budget × 0.8` without rounding, and no roster counters
(`tasks_completed`, `earnings_hbar`) nor the store's global task counter
change. -/
theorem C9_plain_record_synthesizes_result (brokerId : String)
    (liveWorkers : List String) (fulfill : Except String String) (dur now : Nat)
    (req : TaskRequest) (g : GlobalState) (tid rid wid : String)
    (htasks : alookup "tasks" g.hed.topics = some tid)
    (hresults : alookup "results" g.hed.topics = some rid)
    (hfw : find_worker (setAgentStatus g.econ.agents brokerId "busy") req.task_type
             = some wid)
    (hlive : wid ∉ liveWorkers) :
    (submit_task brokerId liveWorkers fulfill dur now req g).1
      = .ok (.done { task_id := req.task_id, worker_id := wid,
                     task_type := req.task_type, result := "Task completed",
                     cost_hbar := req.budget_hbar * (8/10), duration_ms := 500,
                     tx_id := none, status := "completed" }) ∧
    (submit_task brokerId liveWorkers fulfill dur now req g).2.econ.agents.map
        (fun b => (b.agent_id, b.tasks_completed, b.earnings_hbar))
      = g.econ.agents.map (fun b => (b.agent_id, b.tasks_completed, b.earnings_hbar)) ∧
    (submit_task brokerId liveWorkers fulfill dur now req g).2.econ.tasks_completed
      = g.econ.tasks_completed := by
  simp only [submit_task, publish, submit_message, add_message_agents, setStatus_agents,
    htasks, hresults, hfw, hlive, if_neg, if_false, ite_false]
  refine ⟨trivial, ?_, rfl⟩
  rw [counters_setAgentStatus, counters_setAgentStatus]

/-- C9 witness at a concrete input: the roster holds the worker record but
no live instance (`liveWorkers = []`), so the broker synthesizes the result
and no counter moves. -/
theorem C9_witness :
    (submit_task "broker-1" [] (.ok "done") 10 111 reqA gBroker).1
      = .ok (.done { task_id := reqA.task_id, worker_id := "worker-1",
                     task_type := reqA.task_type, result := "Task completed",
                     cost_hbar := reqA.budget_hbar * (8/10), duration_ms := 500,
                     tx_id := none, status := "completed" }) ∧
    (submit_task "broker-1" [] (.ok "done") 10 111 reqA gBroker).2.econ.agents.map
        (fun b => (b.agent_id, b.tasks_completed, b.earnings_hbar))
      = gBroker.econ.agents.map
          (fun b => (b.agent_id, b.tasks_completed, b.earnings_hbar)) ∧
    (submit_task "broker-1" [] (.ok "done") 10 111 reqA gBroker).2.econ.tasks_completed
      = gBroker.econ.tasks_completed :=
  C9_plain_record_synthesizes_result "broker-1" [] (.ok "done") 10 111 reqA gBroker
    "0.0.1002" "0.0.1003" "worker-1" rfl rfl (by decide) (by simp)

/-- C7 (amended): an exception during the result publication (here: the
`results` topic was never ensured) is not swallowed — `submit_task`
propagates it to the caller — but there is no scoped release: the broker's
status is NOT reset and remains `"busy"` in the state the exception leaves
behind. (The original claim's guaranteed reset to `idle` fails, see the
counterexample.) -/
theorem C7_exception_propagates_broker_busy (brokerId : String)
    (liveWorkers : List String) (fulfill : Except String String) (dur now : Nat)
    (req : TaskRequest) (g : GlobalState) (tid wid : String) (a : AgentCapability)
    (htasks : alookup "tasks" g.hed.topics = some tid)
    (hres : alookup "results" g.hed.topics = none)
    (hfw : find_worker (setAgentStatus g.econ.agents brokerId "busy") req.task_type
             = some wid)
    (ha : getAgent g.econ brokerId = some a)
    (hbw : brokerId ≠ wid) :
    (submit_task brokerId liveWorkers fulfill dur now req g).1
      = .error ("Topic " ++ "results" ++ " not initialized") ∧
    (getAgent (submit_task brokerId liveWorkers fulfill dur now req g).2.econ
        brokerId).map (fun b => b.status) = some "busy" := by
  simp only [submit_task, publish, submit_message, add_message_agents, setStatus_agents,
    htasks, hres, hfw]
  by_cases hl : wid ∈ liveWorkers
  · simp only [if_pos hl]
    refine ⟨trivial, ?_⟩
    rw [execute_task_getAgent_ne _ _ _ _ _ _ hbw, getAgent_add_message,
        getAgent_add_message, getAgent_setStatus_self, ha]
    rfl
  · simp only [if_neg hl]
    refine ⟨trivial, ?_⟩
    rw [getAgent_add_message, getAgent_add_message, getAgent_setStatus_self, ha]
    rfl

/-- C7 counterexample: with the `results` topic missing, the exception
propagates out of `submit_task` but the broker record is left `"busy"`, not
`"idle"` — there is no scoped release in the code. -/
theorem C7_counterexample :
    (submit_task "broker-1" [] (.ok "done") 10 111 reqA gNoResults).1
      = .error ("Topic " ++ "results" ++ " not initialized") ∧
    (getAgent (submit_task "broker-1" [] (.ok "done") 10 111 reqA gNoResults).2.econ
        "broker-1").map (fun b => b.status) = some "busy" ∧
    ¬ ((getAgent (submit_task "broker-1" [] (.ok "done") 10 111 reqA gNoResults).2.econ
        "broker-1").map (fun b => b.status) = some "idle") :=
  ⟨by decide, by decide, by decide⟩

/-- C7 witness at a concrete input, through the amended theorem. -/
theorem C7_witness :
    (submit_task "broker-1" ["worker-1"] (.ok "done") 10 111 reqA gNoResults).1
      = .error ("Topic " ++ "results" ++ " not initialized") ∧
    (getAgent (submit_task "broker-1" ["worker-1"] (.ok "done") 10 111 reqA gNoResults).2.econ
        "broker-1").map (fun b => b.status) = some "busy" :=
  C7_exception_propagates_broker_busy "broker-1" ["worker-1"] (.ok "done") 10 111 reqA
    gNoResults "0.0.1002" "worker-1" bA rfl rfl (by decide) rfl (by decide)

end HederaEconomy
